import Mathlib

/-!
Verification of the redlock-rs coordinator (src/redlock.rs, src/util.rs,
src/errors.rs, src/scripts.rs) against its specification.

Modelling conventions:
* Wall-clock instants and durations are integer milliseconds (`Nat`); the
  claims under study are all phrased in milliseconds.
* `f32`/`f64` values (`drift_factor`) are modelled as the exact rationals they
  denote; the f64 product in the drift computation is modelled as exact
  rational arithmetic.
* Rust `u64` arithmetic in release profile wraps, modelled with `% 2 ^ 64`.
* A `panic` (e.g. `Duration::sub` underflow) is modelled as `Option.none`.
* Randomness (`get_random_string`, `gen_range`) and the wall clock
  (`SystemTime::now()`) are inputs: each attempt of the retry loop receives
  the values the environment would have produced for it.
* Per-server network behaviour is an input `ServerOutcome`: either the reply
  produced by the invoked script, or a transport failure.
-/

/-- errors.rs: the `RedlockError` enum (payloads dropped). -/
inductive RedlockError
  | RedisError
  | TimeError
  | NoServerError
  | TimeoutError
  | DelayJitterError
  | LockExpired
  | UnableToLock
  | UnableToUnlock
  | UnableToExtend
  deriving DecidableEq

/-- What a script invocation reports: its conditional mutation took effect
(LOCK replies OK, UNLOCK/EXTEND reply 1) or did not (LOCK replies nil,
UNLOCK/EXTEND reply 0). -/
inductive ScriptReply
  | applied
  | notApplied
  deriving DecidableEq

/-- scripts.rs `LOCK`: `set KEYS[1] ARGV[1] NX PX ARGV[2]` — store the value
only if the key is absent.  `stored` is the server's current value for the
key (`none` = key absent).  Returns the new stored value and the reply. -/
def LOCK_script (stored : Option String) (value : String) :
    Option String × ScriptReply :=
  match stored with
  | none => (some value, .applied)
  | some v => (some v, .notApplied)

/-- scripts.rs `UNLOCK`: delete the key only if its current value equals the
caller's value; reply 1 (applied) or 0 (not applied). -/
def UNLOCK_script (stored : Option String) (value : String) :
    Option String × ScriptReply :=
  if stored = some value then (none, .applied) else (stored, .notApplied)

/-- scripts.rs `EXTEND`: `pexpire` the key only if its current value equals
the caller's value; reply 1 (applied) or 0 (not applied). -/
def EXTEND_script (stored : Option String) (value : String) :
    Option String × ScriptReply :=
  if stored = some value then (stored, .applied) else (stored, .notApplied)

/-- One server's behaviour for one script invocation: either the script ran
and produced a reply, or the round trip failed (connection refused, timeout,
protocol or server error — `get_connection()?` / `invoke(…)?`). -/
inductive ServerOutcome
  | reply (r : ScriptReply)
  | transport
  deriving DecidableEq

/-- redlock.rs helper fns `lock` / `unlock` / `extend` all end in
`.invoke::<()>(…)?`.  In redis-rs, `FromRedisValue for ()` converts every
non-error reply — including nil (LOCK not applied) and integer 0
(UNLOCK/EXTEND not applied) — to `Ok(())`; only transport and server errors
become `Err`.  So the per-server result the coordinator matches on is `Ok`
for applied and not-applied replies alike. -/
def invokeUnit : ServerOutcome → Except Unit Unit
  | .reply _ => .ok ()
  | .transport => .error ()

/-- util.rs `num_milliseconds`: `duration.as_secs() * 1000 +
duration.subsec_nanos() / 1_000_000` in u64 arithmetic (release profile:
overflow wraps modulo 2^64).  `secs` is the u64 second count, `nanos` the
sub-second nanoseconds (< 10^9). -/
def num_milliseconds (secs nanos : Nat) : Nat :=
  let secs_part := secs * 1000 % 2 ^ 64
  let nano_part := nanos / 1000000
  (secs_part + nano_part) % 2 ^ 64

/-- redlock.rs `Redlock::request`: `Duration::from_millis((drift_factor as
f64 * num_milliseconds(ttl) as f64).round() as u64 + 2)`.  The product is
modelled as exact rational arithmetic; `round` is round-half-up, which agrees
with `f64::round` (half away from zero) on the non-negative values reachable
here, and `Int.toNat` models the saturating `as u64` cast of a negative
rounded value. -/
def driftMs (drift_factor : ℚ) (ttl_ms : Nat) : Nat :=
  (round (drift_factor * (ttl_ms : ℚ))).toNat + 2

/-- redlock.rs `Lock` (coordinator back-reference dropped; `expiration` in
ms). -/
structure Lock where
  resource_name : String
  value : String
  expiration : Nat
  deriving DecidableEq

/-- redlock.rs `RequestInfo`. -/
inductive RequestInfo
  | Lock
  | Extend (resource_value : String)
  deriving DecidableEq

/-- Error returned by `request` when the retry count is exhausted
(redlock.rs, end of `Redlock::request`). -/
def RequestInfo.exhaustError : RequestInfo → RedlockError
  | .Lock => .UnableToLock
  | .Extend _ => .UnableToExtend

/-- Environment of one iteration of the `'attempts` loop in `request`: the
wall clock sampled at the top (`let start = SystemTime::now()`), the wall
clock at the `lock.expiration > SystemTime::now()` test, the random 32-char
token `get_random_string(32)` would draw for this attempt, and each client's
behaviour, in client order. -/
structure Attempt where
  start : Nat
  checkNow : Nat
  freshValue : String
  outcomes : List ServerOutcome

/-- redlock.rs `Redlock::request`: the value used for this attempt — a fresh
random token for a lock request, the existing lease's value for an extend. -/
def RequestInfo.attemptValue : RequestInfo → Attempt → String
  | .Lock, a => a.freshValue
  | .Extend v, _ => v

/-- Result of one iteration of an `'attempts` loop body. -/
inductive AttemptResult
  | success
  | retryOk
  | retryErr
  | fallthrough
  deriving DecidableEq

/-- Bookkeeping for the model's contacted-server count: the recursive call
handles the rest of the clients; the current client added one contact. -/
def afterContact (p : AttemptResult × Nat) : AttemptResult × Nat :=
  (p.1, p.2 + 1)

@[simp] theorem afterContact_fst (p : AttemptResult × Nat) :
    (afterContact p).1 = p.1 := rfl

@[simp] theorem afterContact_snd (p : AttemptResult × Nat) :
    (afterContact p).2 = p.2 + 1 := rfl

/-- redlock.rs `Redlock::request`, the `for client in &self.clients` loop.
`outcomes` are the behaviours of the clients still to be contacted;
`waitings`, `votes`, `errors` are the loop's mutable tallies.  Produces the
attempt's outcome and how many servers were contacted:
* `Ok` reply: `waitings -= 1; votes += 1`; when `waitings` is still positive
  the loop continues; otherwise the attempt succeeds iff `votes >= quorum`
  and `expiration > now`, else all partial locks are released and the attempt
  retries after a sleep (`retryOk`).
* `Err`: `errors += 1`; when `errors > quorum` the attempt releases partial
  locks and retries after a sleep (`retryErr`); otherwise the loop continues.
* If the loop ends another way, control falls to the next `while` iteration
  with no release and no sleep (`fallthrough`). -/
def requestAttemptLoop (quorum expiration checkNow : Nat) :
    List ServerOutcome → Nat → Nat → Nat → AttemptResult × Nat
  | [], _, _, _ => (.fallthrough, 0)
  | o :: rest, waitings, votes, errors =>
    match invokeUnit o with
    | .ok _ =>
      if waitings - 1 > 0 then
        afterContact
          (requestAttemptLoop quorum expiration checkNow rest (waitings - 1) (votes + 1) errors)
      else if votes + 1 ≥ quorum ∧ expiration > checkNow then (.success, 1)
      else (.retryOk, 1)
    | .error _ =>
      if errors + 1 > quorum then (.retryErr, 1)
      else
        afterContact
          (requestAttemptLoop quorum expiration checkNow rest waitings votes (errors + 1))

/-- redlock.rs `Redlock::unlock`, the inner `for` loop.  Same shape as
`requestAttemptLoop` with three differences from the source: the success test
is `votes >= quorum` alone, a failed success test just continues the `for`
loop, and the error-branch abort fires at `errors >= quorum` (where `request`
uses `errors > quorum`); no partial state is released. -/
def unlockAttemptLoop (quorum : Nat) :
    List ServerOutcome → Nat → Nat → Nat → AttemptResult × Nat
  | [], _, _, _ => (.fallthrough, 0)
  | o :: rest, waitings, votes, errors =>
    match invokeUnit o with
    | .ok _ =>
      if waitings - 1 > 0 then
        afterContact (unlockAttemptLoop quorum rest (waitings - 1) (votes + 1) errors)
      else if votes + 1 ≥ quorum then (.success, 1)
      else afterContact (unlockAttemptLoop quorum rest (waitings - 1) (votes + 1) errors)
    | .error _ =>
      if errors + 1 ≥ quorum then (.retryErr, 1)
      else afterContact (unlockAttemptLoop quorum rest waitings votes (errors + 1))

/-- redlock.rs `Redlock::request`, the `'attempts: while attempts <
self.retry_count` loop.  The fuel is the number of iterations left; `atts`
supplies each iteration's environment (callers provide at least `fuel`
entries).  Returns the result and the total number of per-server script
invocations issued by the loop itself (the best-effort release of partial
locks is a separate `unlock` call and is not counted). -/
def requestGo (quorum : Nat) (info : RequestInfo) (resource_name : String)
    (ttl drift : Nat) : Nat → List Attempt → Except RedlockError Lock × Nat
  | 0, _ => (.error info.exhaustError, 0)
  | _ + 1, [] => (.error info.exhaustError, 0)
  | n + 1, a :: rest =>
    if (requestAttemptLoop quorum (a.start + ttl - drift) a.checkNow
          a.outcomes a.outcomes.length 0 0).1 = AttemptResult.success then
      (.ok ⟨resource_name, info.attemptValue a, a.start + ttl - drift⟩,
       (requestAttemptLoop quorum (a.start + ttl - drift) a.checkNow
          a.outcomes a.outcomes.length 0 0).2)
    else
      ((requestGo quorum info resource_name ttl drift n rest).1,
       (requestAttemptLoop quorum (a.start + ttl - drift) a.checkNow
          a.outcomes a.outcomes.length 0 0).2
         + (requestGo quorum info resource_name ttl drift n rest).2)

/-- redlock.rs `Redlock::unlock`, the `'attempts` while loop. -/
def unlockGo (quorum : Nat) :
    Nat → List (List ServerOutcome) → Except RedlockError Unit × Nat
  | 0, _ => (.error .UnableToUnlock, 0)
  | _ + 1, [] => (.error .UnableToUnlock, 0)
  | n + 1, outs :: rest =>
    if (unlockAttemptLoop quorum outs outs.length 0 0).1 = AttemptResult.success then
      (.ok (), (unlockAttemptLoop quorum outs outs.length 0 0).2)
    else
      ((unlockGo quorum n rest).1,
       (unlockAttemptLoop quorum outs outs.length 0 0).2 + (unlockGo quorum n rest).2)

/-- redlock.rs `Redlock`.  `retry_delay` in ms; `drift_factor` as the exact
rational the stored f32 denotes; clients kept as their address strings. -/
structure Redlock where
  clients : List String
  retry_count : Nat
  retry_delay : Nat
  retry_jitter : Nat
  drift_factor : ℚ
  quorum : Nat
  deriving DecidableEq

/-- redlock.rs `Config` (the `redis::IntoConnectionInfo` parameter
instantiated at address strings). -/
structure Config where
  addrs : List String
  retry_count : Nat
  retry_delay : Nat
  retry_jitter : Nat
  drift_factor : ℚ

/-- redlock.rs `Redlock::new`.  Errors on an empty server list; otherwise
builds the coordinator with `quorum = floor(N / 2) + 1` (the f64 detour
`(len as f64 / 2).floor() as usize` is exact for any representable length).
`redis::Client::open` is modelled as always succeeding — the claims under
study do not involve malformed connection strings. -/
def Redlock.new (config : Config) : Except RedlockError Redlock :=
  if config.addrs.isEmpty then .error .NoServerError
  else
    .ok { clients := config.addrs
          retry_count := config.retry_count
          retry_delay := config.retry_delay
          retry_jitter := config.retry_jitter
          drift_factor := config.drift_factor
          quorum := config.addrs.length / 2 + 1 }

/-- redlock.rs `Redlock::request` (drift computation plus the attempt
loop). -/
def Redlock.request (rl : Redlock) (info : RequestInfo) (resource_name : String)
    (ttl : Nat) (atts : List Attempt) : Except RedlockError Lock × Nat :=
  requestGo rl.quorum info resource_name ttl (driftMs rl.drift_factor ttl)
    rl.retry_count atts

/-- redlock.rs `Redlock::lock`. -/
def Redlock.lock (rl : Redlock) (resource_name : String) (ttl : Nat)
    (atts : List Attempt) : Except RedlockError Lock × Nat :=
  rl.request .Lock resource_name ttl atts

/-- redlock.rs `Redlock::extend`. -/
def Redlock.extend (rl : Redlock) (resource_name value : String) (ttl : Nat)
    (atts : List Attempt) : Except RedlockError Lock × Nat :=
  rl.request (.Extend value) resource_name ttl atts

/-- redlock.rs `Redlock::unlock`. -/
def Redlock.unlock (rl : Redlock) (atts : List (List ServerOutcome)) :
    Except RedlockError Unit × Nat :=
  unlockGo rl.quorum rl.retry_count atts

/-- redlock.rs `Lock::extend`: `if self.expiration < SystemTime::now()`
return `LockExpired`, else run the EXTEND quorum request with the lease's
own resource name and value.  `now` is the sampled clock; the second
component counts servers contacted. -/
def Lock.extend (lk : Lock) (rl : Redlock) (now ttl : Nat)
    (atts : List Attempt) : Except RedlockError Lock × Nat :=
  if lk.expiration < now then (.error .LockExpired, 0)
  else rl.extend lk.resource_name lk.value ttl atts

/-- redlock.rs `get_retry_timeout`: `jitter = retry_jitter as i32 *
gen_range(-1, 1)`; if `jitter >= 0` the delay plus jitter, else
`retry_delay.sub(…)`, whose underflow panic is modelled as `none`.  `r` is
the value drawn by `thread_rng().gen_range(-1, 1)`, an integer in `[-1, 1)`,
i.e. −1 or 0. -/
def get_retry_timeout (retry_delay retry_jitter : Nat) (r : Int) : Option Nat :=
  let jitter : Int := (retry_jitter : Int) * r
  if jitter ≥ 0 then some (retry_delay + jitter.toNat)
  else if (-jitter).toNat ≤ retry_delay then some (retry_delay - (-jitter).toNat)
  else none

/-- A release fanned out to reachable servers holding the given per-server
states: each server runs UNLOCK with the caller's value and the reply comes
back. -/
def unlockOutcomes (states : List (Option String)) (value : String) :
    List ServerOutcome :=
  states.map fun st => .reply (UNLOCK_script st value).2

/-- The per-server states after that release. -/
def unlockNewStates (states : List (Option String)) (value : String) :
    List (Option String) :=
  states.map fun st => (UNLOCK_script st value).1

/-- Number of transport errors in a list of per-server behaviours. -/
def errCount (outs : List ServerOutcome) : Nat :=
  outs.countP fun o => decide (o = .transport)

@[simp] theorem errCount_nil : errCount [] = 0 := rfl

@[simp] theorem errCount_cons_reply (r : ScriptReply) (l : List ServerOutcome) :
    errCount (ServerOutcome.reply r :: l) = errCount l := by
  simp [errCount, List.countP_cons]

@[simp] theorem errCount_cons_transport (l : List ServerOutcome) :
    errCount (ServerOutcome.transport :: l) = errCount l + 1 := by
  simp [errCount, List.countP_cons]

/-- Concrete drift value for the default factor 0.01 and a 1000 ms TTL:
`round(0.01 · 1000) + 2 = 12`. -/
theorem driftMs_default_1000 : driftMs (1/100) 1000 = 12 := by
  have h : round ((1:ℚ)/100 * ((1000:ℕ):ℚ)) = 10 := by norm_num
  unfold driftMs
  rw [h]
  rfl

/-- C1: refuted by the code (code bug).  One server already holds the
resource under another token, so LOCK replies nil (not-applied); yet the
coordinator, whose per-server `invoke::<()>` result is `Ok` for any reply,
counts the not-applied reply as a vote, reaches quorum 1 and returns a
lease — so an attempt in which every server replies not-applied does reach
quorum. -/
theorem lock_counts_not_applied_reply_as_vote :
    (LOCK_script (some "other") "tok").2 = ScriptReply.notApplied ∧
    Redlock.lock ⟨["redis://127.0.0.1"], 1, 400, 400, 1/100, 1⟩ "res" 1000
        [⟨0, 0, "tok", [.reply (LOCK_script (some "other") "tok").2]⟩] =
      (.ok ⟨"res", "tok", 988⟩, 1) := by
  constructor
  · rfl
  · simp only [Redlock.lock, Redlock.request, driftMs_default_1000]
    rfl

/-- C3: refuted by the code (code bug).  `new` validates only the server
list: the empty list yields `NoServerError`, but a configuration with
`retry_jitter` (500) exceeding `retry_delay` (400 ms) is accepted and yields
a coordinator — `DelayJitterError` is declared in errors.rs ("Retry jitter
must be smaller than retry delay") yet never returned. -/
theorem new_accepts_jitter_exceeding_delay :
    Redlock.new ⟨[], 10, 400, 500, 1/100⟩ = .error .NoServerError ∧
    Redlock.new ⟨["redis://127.0.0.1"], 10, 400, 500, 1/100⟩ =
      .ok ⟨["redis://127.0.0.1"], 10, 400, 500, 1/100, 1⟩ :=
  ⟨rfl, rfl⟩

/-- C4: refuted by the code (code bug).  `gen_range(-1, 1)` draws an integer
in [−1, 1) — only −1 or 0, not a uniform jitter over [−retry_jitter,
+retry_jitter) — and with retry_delay = 100 ms, retry_jitter = 400 and draw
−1 the jitter is −400 ms, whose subtraction from the delay underflows
(`Duration::sub` panics, modelled `none`) instead of clamping the backoff to
zero. -/
theorem backoff_underflows_instead_of_clamping :
    (-1 : Int) ≥ -1 ∧ (-1 : Int) < 1 ∧
    get_retry_timeout 100 400 (-1) = none ∧
    get_retry_timeout 100 400 0 = some 100 := by
  refine ⟨by decide, by decide, rfl, rfl⟩

/-- C7: counterexample — for a duration of 18446744073709552 s the true
millisecond count 18446744073709552000 exceeds u64::MAX =
18446744073709551615, and `num_milliseconds` wraps around to 384 instead of
saturating at the maximum representable count. -/
theorem num_milliseconds_wraps :
    num_milliseconds 18446744073709552 0 = 384 ∧
    2 ^ 64 - 1 < 18446744073709552 * 1000 ∧
    18446744073709552 < 2 ^ 64 ∧
    (384 : Nat) ≠ 2 ^ 64 - 1 := by
  refine ⟨rfl, by norm_num, by norm_num, by norm_num⟩

/-- C8: refuted by the code (code bug).  After a successful release every
server's key for the resource is gone; on a second release every server's
UNLOCK replies 0 (not-applied) and leaves the stored state untouched, yet
`invoke::<()>` maps the 0 reply to `Ok(())`, the coordinator counts three
votes ≥ quorum 2, and the second call returns `Ok` instead of
`UnableToUnlock`. -/
theorem second_release_returns_ok :
    unlockOutcomes [none, none, none] "tok" =
      [.reply .notApplied, .reply .notApplied, .reply .notApplied] ∧
    Redlock.unlock ⟨["s1", "s2", "s3"], 1, 400, 400, 1/100, 2⟩
        [unlockOutcomes [none, none, none] "tok"] = (.ok (), 3) ∧
    unlockNewStates [none, none, none] "tok" = [none, none, none] :=
  ⟨rfl, rfl, rfl⟩

/-- C9: counterexample — with quorum 2 and per-server behaviours
[transport, transport, applied], the acquire/extend attempt loop never
aborts (two errors do not exceed quorum: it contacts all three servers and
falls through to the next attempt), while the release attempt loop abandons
after the second server because its abort test is `errors >= quorum`:
release does not use the same abandonment rule. -/
theorem unlock_abandons_at_quorum_errors :
    requestAttemptLoop 2 988 0 [.transport, .transport, .reply .applied] 3 0 0 =
      (.fallthrough, 3) ∧
    unlockAttemptLoop 2 [.transport, .transport, .reply .applied] 3 0 0 =
      (.retryErr, 2) :=
  ⟨rfl, rfl⟩

/-- C10: with `retry_count = 0` the `'attempts` loops never run: acquire
fails with `UnableToLock`, extend on an unexpired lease with
`UnableToExtend`, and release with `UnableToUnlock`, each immediately and
contacting zero servers. -/
theorem retry_count_zero_fails_immediately (rl : Redlock)
    (h : rl.retry_count = 0) (rn : String) (ttl : Nat) (atts : List Attempt)
    (lk : Lock) (now ttl2 : Nat) (atts2 : List Attempt)
    (hnow : ¬ lk.expiration < now) (uatts : List (List ServerOutcome)) :
    rl.lock rn ttl atts = (.error .UnableToLock, 0) ∧
    lk.extend rl now ttl2 atts2 = (.error .UnableToExtend, 0) ∧
    rl.unlock uatts = (.error .UnableToUnlock, 0) := by
  refine ⟨?_, ?_, ?_⟩
  · simp [Redlock.lock, Redlock.request, h, requestGo, RequestInfo.exhaustError]
  · simp [Lock.extend, hnow, Redlock.extend, Redlock.request, h, requestGo,
      RequestInfo.exhaustError]
  · simp [Redlock.unlock, h, unlockGo]

/-- Witness for `retry_count_zero_fails_immediately` at a concrete
zero-retry coordinator and an unexpired lease. -/
theorem retry_count_zero_fails_immediately_witness :
    Redlock.lock ⟨["s"], 0, 400, 400, 1/100, 1⟩ "r" 1000 [] =
      (.error .UnableToLock, 0) ∧
    Lock.extend ⟨"r", "t", 10⟩ ⟨["s"], 0, 400, 400, 1/100, 1⟩ 5 1000 [] =
      (.error .UnableToExtend, 0) ∧
    Redlock.unlock ⟨["s"], 0, 400, 400, 1/100, 1⟩ [] =
      (.error .UnableToUnlock, 0) :=
  retry_count_zero_fails_immediately ⟨["s"], 0, 400, 400, 1/100, 1⟩ rfl "r" 1000
    [] ⟨"r", "t", 10⟩ 5 1000 [] (by decide) []

/-- An attempt of `request` can only succeed if the validity re-check
`lock.expiration > SystemTime::now()` held when the last vote arrived. -/
theorem requestAttemptLoop_success_valid (quorum expiration checkNow : Nat) :
    ∀ (outs : List ServerOutcome) (w v e : Nat),
    (requestAttemptLoop quorum expiration checkNow outs w v e).1 = AttemptResult.success →
    checkNow < expiration := by
  intro outs
  induction outs with
  | nil => intro w v e h; simp [requestAttemptLoop] at h
  | cons o rest ih =>
    intro w v e h
    cases o with
    | reply r =>
      simp only [requestAttemptLoop, invokeUnit] at h
      by_cases hw : w - 1 > 0
      · rw [if_pos hw] at h
        exact ih _ _ _ (by simpa using h)
      · rw [if_neg hw] at h
        by_cases hv : v + 1 ≥ quorum ∧ expiration > checkNow
        · exact hv.2
        · rw [if_neg hv] at h
          simp at h
    | transport =>
      simp only [requestAttemptLoop, invokeUnit] at h
      by_cases he : e + 1 > quorum
      · rw [if_pos he] at h
        simp at h
      · rw [if_neg he] at h
        exact ih _ _ _ (by simpa using h)

/-- On any successful `request` the returned lock carries the requested
resource name, the extend value when extending, and expiration
`start + ttl − drift` taken from some supplied attempt whose validity
re-check passed. -/
theorem requestGo_ok (quorum : Nat) (info : RequestInfo) (rn : String)
    (ttl drift : Nat) :
    ∀ (n : Nat) (atts : List Attempt) (lk : Lock),
    (requestGo quorum info rn ttl drift n atts).1 = .ok lk →
    lk.resource_name = rn ∧
    (∀ v, info = RequestInfo.Extend v → lk.value = v) ∧
    ∃ a ∈ atts, lk.expiration = a.start + ttl - drift ∧ a.checkNow < lk.expiration := by
  intro n
  induction n with
  | zero => intro atts lk h; simp [requestGo] at h
  | succ n ih =>
    intro atts lk h
    cases atts with
    | nil => simp [requestGo] at h
    | cons a rest =>
      by_cases hs : (requestAttemptLoop quorum (a.start + ttl - drift) a.checkNow
          a.outcomes a.outcomes.length 0 0).1 = AttemptResult.success
      · simp only [requestGo] at h
        rw [if_pos hs] at h
        simp only at h
        rw [Except.ok.injEq] at h
        subst h
        refine ⟨rfl, fun v hv => by cases hv; rfl, a, List.mem_cons_self a rest, rfl, ?_⟩
        exact requestAttemptLoop_success_valid _ _ _ _ _ _ _ hs
      · simp only [requestGo] at h
        rw [if_neg hs] at h
        simp only at h
        obtain ⟨h1, h2, a', ha', he', hc'⟩ := ih rest lk h
        exact ⟨h1, h2, a', List.mem_cons_of_mem a ha', he', hc'⟩

/-- Inside `request`'s client loop — with the running invariant
`waitings = outs.length + errors` that the tallies satisfy, since `waitings`
is decremented exactly on the replies that increment `votes` — as soon as
the transport-error tally of a contacted prefix exceeds the quorum, the
attempt is abandoned through the error branch, having contacted no more
servers than that prefix. -/
theorem requestAttemptLoop_abort (quorum expiration checkNow : Nat)
    (outs : List ServerOutcome) :
    ∀ (votes errors k : Nat), errors ≤ quorum →
    quorum < errors + errCount (List.take k outs) →
    (requestAttemptLoop quorum expiration checkNow outs (outs.length + errors) votes errors).1
        = AttemptResult.retryErr ∧
    (requestAttemptLoop quorum expiration checkNow outs (outs.length + errors) votes errors).2
        ≤ k := by
  induction outs with
  | nil =>
    intro votes errors k he hk
    simp at hk
    exact absurd hk (by omega)
  | cons o rest ih =>
    intro votes errors k he hk
    cases k with
    | zero =>
      simp at hk
      exact absurd hk (by omega)
    | succ k =>
      rw [List.take_succ_cons] at hk
      cases o with
      | reply r =>
        rw [errCount_cons_reply] at hk
        have hw : (ServerOutcome.reply r :: rest).length + errors - 1 = rest.length + errors := by
          simp only [List.length_cons]
          omega
        simp only [requestAttemptLoop, invokeUnit, hw]
        by_cases hpos : rest.length + errors > 0
        · rw [if_pos hpos]
          have hrec := ih (votes + 1) errors k he hk
          exact ⟨by simpa using hrec.1, by simp only [afterContact_snd]; omega⟩
        · have h0 : rest.length = 0 := by omega
          have he0 : errors = 0 := by omega
          have hrest : rest = [] := List.length_eq_zero.mp h0
          subst hrest
          simp at hk
          exact absurd hk (by omega)
      | transport =>
        rw [errCount_cons_transport] at hk
        have harr : (ServerOutcome.transport :: rest).length + errors
            = rest.length + (errors + 1) := by
          simp only [List.length_cons]
          omega
        simp only [requestAttemptLoop, invokeUnit, harr]
        by_cases herr : errors + 1 > quorum
        · rw [if_pos herr]
          exact ⟨rfl, by omega⟩
        · rw [if_neg herr]
          have hrec := ih votes (errors + 1) k (by omega) (by omega)
          exact ⟨by simpa using hrec.1, by simp only [afterContact_snd]; omega⟩

/-- `request`'s client loop abandons through the error branch only when the
transport-error tally exceeds the quorum. -/
theorem requestAttemptLoop_no_abort (quorum expiration checkNow : Nat)
    (outs : List ServerOutcome) :
    ∀ (waitings votes errors : Nat), errors + errCount outs ≤ quorum →
    (requestAttemptLoop quorum expiration checkNow outs waitings votes errors).1
      ≠ AttemptResult.retryErr := by
  induction outs with
  | nil =>
    intro w votes errors hk
    simp [requestAttemptLoop]
  | cons o rest ih =>
    intro w votes errors hk
    cases o with
    | reply r =>
      rw [errCount_cons_reply] at hk
      simp only [requestAttemptLoop, invokeUnit]
      by_cases hpos : w - 1 > 0
      · rw [if_pos hpos]
        simpa using ih (w - 1) (votes + 1) errors hk
      · rw [if_neg hpos]
        by_cases hv : votes + 1 ≥ quorum ∧ expiration > checkNow
        · rw [if_pos hv]
          simp
        · rw [if_neg hv]
          simp
    | transport =>
      rw [errCount_cons_transport] at hk
      simp only [requestAttemptLoop, invokeUnit]
      have herr : ¬ (errors + 1 > quorum) := by omega
      rw [if_neg herr]
      simpa using ih w votes (errors + 1) (by omega)

/-- Inside `unlock`'s client loop (same `waitings = outs.length + errors`
invariant), as soon as the transport-error tally of a contacted prefix
reaches the quorum, the attempt is abandoned through the error branch,
having contacted no more servers than that prefix. -/
theorem unlockAttemptLoop_abort (quorum : Nat) (outs : List ServerOutcome) :
    ∀ (votes errors k : Nat), errors < quorum →
    quorum ≤ errors + errCount (List.take k outs) →
    (unlockAttemptLoop quorum outs (outs.length + errors) votes errors).1
        = AttemptResult.retryErr ∧
    (unlockAttemptLoop quorum outs (outs.length + errors) votes errors).2 ≤ k := by
  induction outs with
  | nil =>
    intro votes errors k he hk
    simp at hk
    exact absurd hk (by omega)
  | cons o rest ih =>
    intro votes errors k he hk
    cases k with
    | zero =>
      simp at hk
      exact absurd hk (by omega)
    | succ k =>
      rw [List.take_succ_cons] at hk
      cases o with
      | reply r =>
        rw [errCount_cons_reply] at hk
        have hw : (ServerOutcome.reply r :: rest).length + errors - 1 = rest.length + errors := by
          simp only [List.length_cons]
          omega
        simp only [unlockAttemptLoop, invokeUnit, hw]
        by_cases hpos : rest.length + errors > 0
        · rw [if_pos hpos]
          have hrec := ih (votes + 1) errors k he hk
          exact ⟨by simpa using hrec.1, by simp only [afterContact_snd]; omega⟩
        · have h0 : rest.length = 0 := by omega
          have he0 : errors = 0 := by omega
          have hrest : rest = [] := List.length_eq_zero.mp h0
          subst hrest
          simp at hk
          exact absurd hk (by omega)
      | transport =>
        rw [errCount_cons_transport] at hk
        have harr : (ServerOutcome.transport :: rest).length + errors
            = rest.length + (errors + 1) := by
          simp only [List.length_cons]
          omega
        simp only [unlockAttemptLoop, invokeUnit, harr]
        by_cases herr : errors + 1 ≥ quorum
        · rw [if_pos herr]
          exact ⟨rfl, by omega⟩
        · rw [if_neg herr]
          have hrec := ih votes (errors + 1) k (by omega) (by omega)
          exact ⟨by simpa using hrec.1, by simp only [afterContact_snd]; omega⟩

/-- `unlock`'s client loop abandons through the error branch only when the
transport-error tally reaches the quorum. -/
theorem unlockAttemptLoop_no_abort (quorum : Nat) (outs : List ServerOutcome) :
    ∀ (waitings votes errors : Nat), errors + errCount outs < quorum →
    (unlockAttemptLoop quorum outs waitings votes errors).1
      ≠ AttemptResult.retryErr := by
  induction outs with
  | nil =>
    intro w votes errors hk
    simp [unlockAttemptLoop]
  | cons o rest ih =>
    intro w votes errors hk
    cases o with
    | reply r =>
      rw [errCount_cons_reply] at hk
      simp only [unlockAttemptLoop, invokeUnit]
      by_cases hpos : w - 1 > 0
      · rw [if_pos hpos]
        simpa using ih (w - 1) (votes + 1) errors hk
      · rw [if_neg hpos]
        by_cases hv : votes + 1 ≥ quorum
        · rw [if_pos hv]
          simp
        · rw [if_neg hv]
          simpa using ih (w - 1) (votes + 1) errors hk
    | transport =>
      rw [errCount_cons_transport] at hk
      simp only [unlockAttemptLoop, invokeUnit]
      have herr : ¬ (errors + 1 ≥ quorum) := by omega
      rw [if_neg herr]
      simpa using ih w votes (errors + 1) (by omega)

/-- C9 (amended): within any single attempt, acquire and extend abandon the
attempt through the error branch — releasing partial state, then sleeping
and retrying — as soon as the transport-error count exceeds the quorum, and
never abandon through that branch otherwise; release follows the same
attempt-loop shape but its abandonment rule fires as soon as the error count
reaches the quorum (`errors >= quorum` rather than `errors > quorum`). -/
theorem attempt_error_abandonment (quorum expiration checkNow : Nat)
    (outs : List ServerOutcome) (hq : 1 ≤ quorum) :
    (∀ k, quorum < errCount (List.take k outs) →
      (requestAttemptLoop quorum expiration checkNow outs outs.length 0 0).1
          = AttemptResult.retryErr ∧
      (requestAttemptLoop quorum expiration checkNow outs outs.length 0 0).2 ≤ k) ∧
    (errCount outs ≤ quorum →
      (requestAttemptLoop quorum expiration checkNow outs outs.length 0 0).1
        ≠ AttemptResult.retryErr) ∧
    (∀ k, quorum ≤ errCount (List.take k outs) →
      (unlockAttemptLoop quorum outs outs.length 0 0).1 = AttemptResult.retryErr ∧
      (unlockAttemptLoop quorum outs outs.length 0 0).2 ≤ k) ∧
    (errCount outs < quorum →
      (unlockAttemptLoop quorum outs outs.length 0 0).1 ≠ AttemptResult.retryErr) := by
  refine ⟨fun k hk => ?_, fun hk => ?_, fun k hk => ?_, fun hk => ?_⟩
  · have h := requestAttemptLoop_abort quorum expiration checkNow outs 0 0 k
      (Nat.zero_le _) (by omega)
    simpa using h
  · simpa using requestAttemptLoop_no_abort quorum expiration checkNow outs
      outs.length 0 0 (by omega)
  · have h := unlockAttemptLoop_abort quorum outs 0 0 k (by omega) (by omega)
    simpa using h
  · simpa using unlockAttemptLoop_no_abort quorum outs outs.length 0 0 (by omega)

/-- Witness for `attempt_error_abandonment`: quorum 2, three servers all
failing — the acquire attempt is abandoned having contacted at most three
servers. -/
theorem attempt_error_abandonment_witness :
    (requestAttemptLoop 2 988 0 [.transport, .transport, .transport] 3 0 0).1
        = AttemptResult.retryErr ∧
    (requestAttemptLoop 2 988 0 [.transport, .transport, .transport] 3 0 0).2 ≤ 3 :=
  (attempt_error_abandonment 2 988 0 [.transport, .transport, .transport]
      (by decide)).1 3 (by decide)

/-- C6: on every successful acquire or extend the returned lease's
expiration equals `start + ttl − drift`, where `start` is the wall-clock
instant sampled at the beginning of the succeeding attempt and
`drift = round(drift_factor · ttl_ms) + 2` ms, and that attempt's validity
re-check passed; in particular `expiration ≤ start + ttl − drift`. -/
theorem lease_expiration_formula (rl : Redlock) (info : RequestInfo)
    (rn : String) (ttl : Nat) (atts : List Attempt) (lk : Lock)
    (h : (rl.request info rn ttl atts).1 = .ok lk) :
    ∃ a ∈ atts,
      lk.expiration = a.start + ttl - ((round (rl.drift_factor * (ttl : ℚ))).toNat + 2) ∧
      lk.expiration ≤ a.start + ttl - ((round (rl.drift_factor * (ttl : ℚ))).toNat + 2) ∧
      a.checkNow < lk.expiration := by
  obtain ⟨-, -, a, ha, he, hc⟩ := requestGo_ok rl.quorum info rn ttl
    (driftMs rl.drift_factor ttl) rl.retry_count atts lk h
  exact ⟨a, ha, by simpa [driftMs] using he, by simpa [driftMs] using he.le, hc⟩

/-- Witness for `lease_expiration_formula` at a single-server acquire. -/
theorem lease_expiration_formula_witness :
    ∃ a ∈ [({ start := 0, checkNow := 0, freshValue := "w",
              outcomes := [ServerOutcome.reply ScriptReply.applied] } : Attempt)],
      (988 : Nat) = a.start + 1000 - ((round (((1:ℚ)/100) * ((1000 : ℕ) : ℚ))).toNat + 2) ∧
      (988 : Nat) ≤ a.start + 1000 - ((round (((1:ℚ)/100) * ((1000 : ℕ) : ℚ))).toNat + 2) ∧
      a.checkNow < 988 :=
  lease_expiration_formula ⟨["s"], 1, 400, 400, 1/100, 1⟩ .Lock "res" 1000
    [⟨0, 0, "w", [.reply .applied]⟩] ⟨"res", "w", 988⟩
    (by simp only [Redlock.request, driftMs_default_1000]; rfl)

/-- C5: counterexample — with `now` equal to the lease's expiration (so
`now ≥ expiration` holds), `extend` does not return `LockExpired`: the
code's local check is the strict `expiration < now`, so it proceeds to the
EXTEND quorum, contacts the server, and here succeeds. -/
theorem extend_at_exact_expiration_contacts_server :
    Lock.extend ⟨"res", "tok", 5⟩ ⟨["s"], 1, 400, 400, 1/100, 1⟩ 5 1000
        [⟨100, 100, "fresh", [.reply (EXTEND_script (some "tok") "tok").2]⟩] =
      (.ok ⟨"res", "tok", 1088⟩, 1) := by
  simp only [Lock.extend, Redlock.extend, Redlock.request, driftMs_default_1000]
  rfl

/-- C5 (amended): `extend` fails locally with `LockExpired`, contacting no
server, exactly when `now` is strictly past the lease's expiration (the
code checks `expiration < now`, so at `now = expiration` it still issues
the quorum request); otherwise it runs the EXTEND quorum with the lease's
own resource name and value, and on success the new lease keeps that name
and value and carries the refreshed expiration `start + ttl − drift` from
the succeeding attempt. -/
theorem extend_expiry_check (lk : Lock) (rl : Redlock) (now ttl : Nat)
    (atts : List Attempt) :
    (lk.expiration < now → lk.extend rl now ttl atts = (.error .LockExpired, 0)) ∧
    (¬ lk.expiration < now →
      lk.extend rl now ttl atts = rl.extend lk.resource_name lk.value ttl atts) ∧
    (∀ lk2, (lk.extend rl now ttl atts).1 = .ok lk2 →
      lk2.resource_name = lk.resource_name ∧ lk2.value = lk.value ∧
      ∃ a ∈ atts, lk2.expiration = a.start + ttl - driftMs rl.drift_factor ttl ∧
        a.checkNow < lk2.expiration) := by
  refine ⟨fun h => by simp [Lock.extend, h], fun h => by simp [Lock.extend, h],
    fun lk2 h => ?_⟩
  by_cases hex : lk.expiration < now
  · simp [Lock.extend, hex] at h
  · simp only [Lock.extend, if_neg hex] at h
    obtain ⟨h1, h2, a, ha, he, hc⟩ := requestGo_ok rl.quorum
      (RequestInfo.Extend lk.value) lk.resource_name ttl
      (driftMs rl.drift_factor ttl) rl.retry_count atts lk2 h
    exact ⟨h1, h2 _ rfl, a, ha, he, hc⟩

/-- Witness for `extend_expiry_check`: a lease that expired at 5 ms,
extended at 6 ms, fails locally. -/
theorem extend_expiry_check_witness :
    Lock.extend ⟨"r", "t", 5⟩ ⟨["s"], 1, 400, 400, 1/100, 1⟩ 6 1000 [] =
      (.error .LockExpired, 0) :=
  (extend_expiry_check ⟨"r", "t", 5⟩ ⟨["s"], 1, 400, 400, 1/100, 1⟩ 6 1000 []).1
    (by decide)

/-- C7 (amended): `num_milliseconds` returns the duration's millisecond
count reduced modulo 2^64 — non-negative by construction, exact whenever
the true count fits in u64, and wrapping modulo 2^64 (not saturating) when
it does not. -/
theorem num_milliseconds_mod (secs nanos : Nat) :
    num_milliseconds secs nanos = (secs * 1000 + nanos / 1000000) % 2 ^ 64 ∧
    (secs * 1000 + nanos / 1000000 < 2 ^ 64 →
      num_milliseconds secs nanos = secs * 1000 + nanos / 1000000) := by
  have h1 : num_milliseconds secs nanos = (secs * 1000 + nanos / 1000000) % 2 ^ 64 := by
    unfold num_milliseconds
    simp [Nat.mod_add_mod]
  exact ⟨h1, fun hlt => by rw [h1, Nat.mod_eq_of_lt hlt]⟩

/-- Witness for `num_milliseconds_mod` at 5 s + 10 ms of nanoseconds: the
true count fits in u64, so the result is exact. -/
theorem num_milliseconds_mod_witness :
    num_milliseconds 5 10000000 = 5 * 1000 + 10000000 / 1000000 :=
  (num_milliseconds_mod 5 10000000).2 (by norm_num)
